import Mathlib

/-!
# Verification of the Arbitrage Detection Engine

Shallow embedding of the arbitrage detection engine
(`opportunity_scanner.py`, `triangular_finder.py`, `profit_calculator.py`,
and the static venue tables of `price_fetcher.py`).

Modelling conventions:
* Python `Decimal` and `float` values are both modelled as `ℚ`.  All the
  arithmetic the engine performs on concrete table/fee/price values is exact
  in `ℚ` (Python `float` literals such as `0.001` are converted through
  `Decimal(str(...))` in the source, which round-trips the decimal literal).
* A Python function that can raise `decimal.DivisionByZero` is modelled with
  `Except Unit`, where `.error ()` marks the raised exception.
* `PriceQuote.staleness` directly models the derived Python property
  `staleness_seconds = now - timestamp` (the wall clock is external input);
  `is_fresh` is `staleness < 30` exactly as in the source.
* Presentation-only strings (opportunity notes, triangular execution steps)
  are modelled as small inductive types carrying the data that is
  interpolated into the Python f-strings; the textual formatting itself is
  not modelled.
* Python `dict` lookups over string keys are modelled by `alookup` below
  (first matching key), and the one dict that is *built* by the engine (the
  token adjacency graph) is modelled as an association list with the same
  update semantics.
-/

namespace ArbEngine

/-- Association-list lookup, modelling Python `dict.get` for the string-keyed
tables of the engine (each table has pairwise distinct keys). -/
def alookup {α : Type} (k : String) : List (String × α) → Option α
  | [] => none
  | (a, b) :: es => if k = a then some b else alookup k es

instance {ε α : Type} [DecidableEq ε] [DecidableEq α] : DecidableEq (Except ε α)
  | .error e, .error f =>
    if h : e = f then isTrue (by rw [h]) else isFalse (by simp [h])
  | .error _, .ok _ => isFalse (fun h => Except.noConfusion h)
  | .ok _, .error _ => isFalse (fun h => Except.noConfusion h)
  | .ok a, .ok b =>
    if h : a = b then isTrue (by rw [h]) else isFalse (by simp [h])

/-- Fuel-driven scan for `replaceList`: every step consumes at least one
character, so fuel equal to the list length never runs out.  (Structural
recursion on the fuel keeps the definition kernel-reducible.) -/
def replaceGo (pat rep : List Char) : ℕ → List Char → List Char
  | 0, l => l
  | _ + 1, [] => []
  | fuel + 1, c :: rest =>
    if pat ≠ [] ∧ (c :: rest).take pat.length = pat then
      rep ++ replaceGo pat rep fuel ((c :: rest).drop pat.length)
    else
      c :: replaceGo pat rep fuel rest

/-- Replace every (non-overlapping, left-to-right) occurrence of `pat` by
`rep`, modelling Python `str.replace` on the underlying character list. -/
def replaceList (pat rep l : List Char) : List Char :=
  replaceGo pat rep l.length l

/-- Python `str.lower()` (ASCII venue names only are ever normalized). -/
def lowerStr (s : String) : String := ⟨s.data.map Char.toLower⟩

/-- Venue-name normalization used by the engine at every fee lookup:
`exchange.lower().replace(" ", "").replace("v3", "")`. -/
def normalizeVenue (s : String) : String :=
  ⟨replaceList ['v', '3'] [] (replaceList [' '] [] ((lowerStr s).data))⟩

/-! ## Quote model and venue registry (`price_fetcher.py`) -/

/-- Python `ExchangeType` enum. -/
inductive ExchangeType where
  | CEX : ExchangeType
  | DEX : ExchangeType
  deriving DecidableEq, Repr

/-- Python `PriceQuote` dataclass.  `staleness` models the derived
`staleness_seconds` property (wall clock minus `timestamp`). -/
structure PriceQuote where
  exchange : String
  exchangeType : ExchangeType
  pair : String
  bid : ℚ
  ask : ℚ
  mid : ℚ
  spreadPct : ℚ
  volume24h : ℚ
  staleness : ℚ
  chain : String := "ethereum"
  deriving DecidableEq, Repr

/-- Python `PriceQuote.is_fresh`: quote younger than 30 seconds. -/
def PriceQuote.isFresh (q : PriceQuote) : Prop := q.staleness < 30

instance (q : PriceQuote) : Decidable q.isFresh := by
  unfold PriceQuote.isFresh; infer_instance

/-- Python `ExchangeConfig` dataclass. -/
structure ExchangeConfig where
  name : String
  exchangeType : ExchangeType
  makerFee : ℚ
  takerFee : ℚ
  withdrawalFee : ℚ := 0
  gasOverhead : ℕ := 0
  chains : List String := ["ethereum"]
  deriving DecidableEq, Repr

/-- Table `PriceFetcher.CEX_CONFIGS`. -/
def cexConfigs : List (String × ExchangeConfig) :=
  [("binance", { name := "Binance", exchangeType := .CEX,
                 makerFee := 0.0010, takerFee := 0.0010 }),
   ("coinbase", { name := "Coinbase", exchangeType := .CEX,
                  makerFee := 0.0040, takerFee := 0.0060 }),
   ("kraken", { name := "Kraken", exchangeType := .CEX,
                makerFee := 0.0016, takerFee := 0.0026 }),
   ("kucoin", { name := "KuCoin", exchangeType := .CEX,
                makerFee := 0.0010, takerFee := 0.0010 }),
   ("okx", { name := "OKX", exchangeType := .CEX,
             makerFee := 0.0008, takerFee := 0.0010 })]

/-- Table `PriceFetcher.DEX_CONFIGS`. -/
def dexConfigs : List (String × ExchangeConfig) :=
  [("uniswap", { name := "Uniswap V3", exchangeType := .DEX,
                 makerFee := 0.0030, takerFee := 0.0030, gasOverhead := 150000,
                 chains := ["ethereum", "polygon", "arbitrum", "optimism"] }),
   ("sushiswap", { name := "SushiSwap", exchangeType := .DEX,
                   makerFee := 0.0030, takerFee := 0.0030, gasOverhead := 150000,
                   chains := ["ethereum", "polygon", "arbitrum"] }),
   ("curve", { name := "Curve", exchangeType := .DEX,
               makerFee := 0.0004, takerFee := 0.0004, gasOverhead := 200000,
               chains := ["ethereum", "polygon", "arbitrum"] }),
   ("balancer", { name := "Balancer", exchangeType := .DEX,
                  makerFee := 0.0010, takerFee := 0.0010, gasOverhead := 180000 })]

/-- Lookup `PriceFetcher.get_exchange_config`: lowercase, CEX table first, then DEX. -/
def getExchangeConfig (exchange : String) : Option ExchangeConfig :=
  let el := lowerStr exchange
  match alookup el cexConfigs with
  | some c => some c
  | none => alookup el dexConfigs

/-! ## Direct opportunity scanner (`opportunity_scanner.py`) -/

/-- Python `RiskLevel` enum. -/
inductive RiskLevel where
  | LOW : RiskLevel
  | MEDIUM : RiskLevel
  | HIGH : RiskLevel
  | EXTREME : RiskLevel
  deriving DecidableEq, Repr

/-- Numeric rank of a risk level (LOW < MEDIUM < HIGH < EXTREME). -/
def RiskLevel.rank : RiskLevel → ℕ
  | .LOW => 0
  | .MEDIUM => 1
  | .HIGH => 2
  | .EXTREME => 3

/-- Scanner parameters (`OpportunityScanner.__init__`); the price fetcher is
the external quote source and is not part of the engine. -/
structure Scanner where
  minProfitPct : ℚ := 0.1
  gasPriceGwei : ℚ := 30
  ethPriceUsd : ℚ := 2500
  deriving DecidableEq, Repr

/-- Staleness contribution to the risk score (`+2` per leg older than 10s). -/
def stalenessScore (q : PriceQuote) : ℕ := if 10 < q.staleness then 2 else 0

/-- Spread-size contribution to the risk score. -/
def spreadScore (netSpreadPct : ℚ) : ℕ :=
  if 5 < netSpreadPct then 3 else if 2 < netSpreadPct then 1 else 0

/-- DEX-involvement contribution to the risk score (`+1` per DEX leg). -/
def dexScore (q : PriceQuote) : ℕ := if q.exchangeType = .DEX then 1 else 0

/-- Volume contribution to the risk score, from the smaller 24h volume. -/
def volumeScore (bq sq : PriceQuote) : ℕ :=
  if min bq.volume24h sq.volume24h < 1000 then 2
  else if min bq.volume24h sq.volume24h < 10000 then 1 else 0

/-- The additive risk score of `OpportunityScanner._assess_risk`. -/
def riskScore (bq sq : PriceQuote) (netSpreadPct : ℚ) : ℕ :=
  stalenessScore bq + stalenessScore sq + spreadScore netSpreadPct +
    dexScore bq + dexScore sq + volumeScore bq sq

/-- Bucketing of the risk score into a `RiskLevel`. -/
def riskBucket (score : ℕ) : RiskLevel :=
  if score ≤ 1 then .LOW
  else if score ≤ 3 then .MEDIUM
  else if score ≤ 5 then .HIGH
  else .EXTREME

/-- Method `OpportunityScanner._assess_risk`. -/
def assessRisk (bq sq : PriceQuote) (netSpreadPct : ℚ) : RiskLevel :=
  riskBucket (riskScore bq sq netSpreadPct)

/-- The data behind the note strings generated for an opportunity; the
f-string formatting of the Python source is presentation only. -/
inductive OppNote where
  | staleWarning : OppNote
  | buyOnChain (gasCostUsd : ℚ) : OppNote
  | sellOnChain : OppNote
  | largeSpread : OppNote
  deriving DecidableEq, Repr

/-- Python `OpportunityType` enum (the scanner only emits `DIRECT`). -/
inductive OpportunityType where
  | DIRECT : OpportunityType
  | TRIANGULAR : OpportunityType
  | CROSS_CHAIN : OpportunityType
  deriving DecidableEq, Repr

/-- Python `ArbitrageOpportunity` dataclass. -/
structure ArbitrageOpportunity where
  opportunityType : OpportunityType
  pair : String
  buyExchange : String
  sellExchange : String
  buyPrice : ℚ
  sellPrice : ℚ
  grossSpreadPct : ℚ
  netSpreadPct : ℚ
  grossProfitPerUnit : ℚ
  netProfitPerUnit : ℚ
  buyFeePct : ℚ
  sellFeePct : ℚ
  estimatedGasUsd : ℚ
  riskLevel : RiskLevel
  notes : List OppNote
  buyExchangeType : ExchangeType
  sellExchangeType : ExchangeType
  deriving DecidableEq, Repr

/-- Property `ArbitrageOpportunity.is_profitable`. -/
def ArbitrageOpportunity.isProfitable (o : ArbitrageOpportunity) : Prop :=
  0 < o.netProfitPerUnit

/-- Method `ArbitrageOpportunity.profit_for_amount`:
`amount * net_profit_per_unit / buy_price`. -/
def ArbitrageOpportunity.profitForAmount (o : ArbitrageOpportunity) (amount : ℚ) : ℚ :=
  amount * o.netProfitPerUnit / o.buyPrice

/-- The taker fee the scanner uses for a venue: the registry value after
name normalization, or the documented default `0.001` on a miss. -/
def takerFeeFor (exchange : String) : ℚ :=
  match getExchangeConfig (normalizeVenue exchange) with
  | some c => c.takerFee
  | none => 0.001

/-- The gas units the scanner assumes for one leg on a venue
(`config.gas_overhead`, or `150000` on a registry miss). -/
def scanGasUnits (exchange : String) : ℚ :=
  match getExchangeConfig (normalizeVenue exchange) with
  | some c => (c.gasOverhead : ℚ)
  | none => 150000

/-- The scanner's DEX gas-cost estimate in USD:
`gas_units * gas_price_gwei * 1e-9 * eth_price_usd` summed per DEX leg. -/
def scanGasEstimate (s : Scanner) (bq sq : PriceQuote) : ℚ :=
  (if bq.exchangeType = .DEX then
    scanGasUnits bq.exchange * s.gasPriceGwei * (1 / 1000000000) * s.ethPriceUsd
   else 0) +
  (if sq.exchangeType = .DEX then
    scanGasUnits sq.exchange * s.gasPriceGwei * (1 / 1000000000) * s.ethPriceUsd
   else 0)

/-- The opportunity record `_evaluate_opportunity` constructs once the
gross-spread gate has passed (and `buy_quote.ask` is nonzero, so the two
percentage divisions are defined). -/
def mkOpportunity (s : Scanner) (bq sq : PriceQuote) : ArbitrageOpportunity :=
  let buyFee := takerFeeFor bq.exchange
  let sellFee := takerFeeFor sq.exchange
  let grossProfit := sq.bid - bq.ask
  let grossSpreadPct := grossProfit / bq.ask * 100
  let totalFees := bq.ask * buyFee + sq.bid * sellFee
  let gasCostUsd := scanGasEstimate s bq sq
  let netProfit := grossProfit - totalFees
  let netSpreadPct := netProfit / bq.ask * 100
  { opportunityType := .DIRECT
    pair := bq.pair
    buyExchange := bq.exchange
    sellExchange := sq.exchange
    buyPrice := bq.ask
    sellPrice := sq.bid
    grossSpreadPct := grossSpreadPct
    netSpreadPct := netSpreadPct
    grossProfitPerUnit := grossProfit
    netProfitPerUnit := netProfit
    buyFeePct := buyFee * 100
    sellFeePct := sellFee * 100
    estimatedGasUsd := gasCostUsd
    riskLevel := assessRisk bq sq netSpreadPct
    notes :=
      (if ¬bq.isFresh ∨ ¬sq.isFresh then [OppNote.staleWarning] else []) ++
      (if bq.exchangeType = .DEX then [OppNote.buyOnChain gasCostUsd] else []) ++
      (if sq.exchangeType = .DEX then [OppNote.sellOnChain] else []) ++
      (if 2 < grossSpreadPct then [OppNote.largeSpread] else [])
    buyExchangeType := bq.exchangeType
    sellExchangeType := sq.exchangeType }

/-- Method `OpportunityScanner._evaluate_opportunity`.  `.ok none` is the
no-positive-spread rejection; `.error ()` models the `DivisionByZero`
raised by `gross_profit / buy_quote.ask` when the gate passes with a zero
ask price. -/
def evalOpp (s : Scanner) (bq sq : PriceQuote) :
    Except Unit (Option ArbitrageOpportunity) :=
  if sq.bid ≤ bq.ask then .ok none
  else if bq.ask = 0 then .error ()
  else .ok (some (mkOpportunity s bq sq))

/-- Evaluator `_evaluate_opportunity` restricted to inputs where it cannot raise. -/
def evalOppOk (s : Scanner) (bq sq : PriceQuote) : Option ArbitrageOpportunity :=
  if sq.bid ≤ bq.ask then none else some (mkOpportunity s bq sq)

/-- One inner-loop step of `scan`: skip same-venue pairs, evaluate, keep
the opportunity when `net_spread_pct ≥ min_profit_pct`. -/
def scanStep (s : Scanner) (bq : PriceQuote) (acc : List ArbitrageOpportunity)
    (sq : PriceQuote) : Except Unit (List ArbitrageOpportunity) :=
  if bq.exchange = sq.exchange then .ok acc
  else
    match evalOpp s bq sq with
    | .error e => .error e
    | .ok (some opp) =>
      if s.minProfitPct ≤ opp.netSpreadPct then .ok (acc ++ [opp]) else .ok acc
    | .ok none => .ok acc

/-- The candidate collection loop of `OpportunityScanner.scan` (every
ordered pair of quotes, in source iteration order). -/
def scanCandidates (s : Scanner) (quotes : List PriceQuote) :
    Except Unit (List ArbitrageOpportunity) :=
  quotes.foldlM (fun acc bq => quotes.foldlM (scanStep s bq) acc) []

/-- Pure image of `scanStep` (used when no evaluation can raise). -/
def scanStepOk (s : Scanner) (bq : PriceQuote) (acc : List ArbitrageOpportunity)
    (sq : PriceQuote) : List ArbitrageOpportunity :=
  if bq.exchange = sq.exchange then acc
  else
    match evalOppOk s bq sq with
    | some opp =>
      if s.minProfitPct ≤ opp.netSpreadPct then acc ++ [opp] else acc
    | none => acc

/-- Pure image of `scanCandidates`. -/
def scanCandidatesOk (s : Scanner) (quotes : List PriceQuote) :
    List ArbitrageOpportunity :=
  quotes.foldl (fun acc bq => quotes.foldl (scanStepOk s bq) acc) []

/-- Descending comparison on `net_spread_pct`, the key of the final
`opportunities.sort(key=..., reverse=True)`. -/
def oppGE (a b : ArbitrageOpportunity) : Prop := b.netSpreadPct ≤ a.netSpreadPct

instance : DecidableRel oppGE := by
  unfold oppGE; infer_instance

/-- Python `ScanResult` dataclass (its `timestamp` is a wall-clock reading and is
external to the engine). -/
structure ScanResult where
  pair : String
  quotes : List PriceQuote
  opportunities : List ArbitrageOpportunity
  bestOpportunity : Option ArbitrageOpportunity
  deriving DecidableEq, Repr

/-- Method `OpportunityScanner.scan`, starting from the fetched quote list (quote
acquisition belongs to the external price source). -/
def scan (s : Scanner) (pair : String) (quotes : List PriceQuote) :
    Except Unit ScanResult :=
  if quotes.length < 2 then
    .ok { pair := pair, quotes := quotes, opportunities := [],
          bestOpportunity := none }
  else
    match scanCandidates s quotes with
    | .error e => .error e
    | .ok cands =>
      let sorted := List.insertionSort oppGE cands
      .ok { pair := pair, quotes := quotes, opportunities := sorted,
            bestOpportunity := sorted.head? }

/-! ## Triangular path finder (`triangular_finder.py`) -/

/-- Python `TradingPair` dataclass. -/
structure TradingPair where
  base : String
  quote : String
  bid : ℚ
  ask : ℚ
  feeRate : ℚ
  exchange : String
  deriving DecidableEq, Repr

/-- The data behind one `execution_steps` entry
(`"Sell {from} for {to} at {price}"` / `"Buy {to} with {from} at {price}"`). -/
inductive Step where
  | sell (fromTok toTok : String) (price : ℚ) : Step
  | buy (toTok fromTok : String) (price : ℚ) : Step
  deriving DecidableEq, Repr

/-- Python `ArbitragePath` dataclass. -/
structure ArbitragePath where
  tokens : List String
  pairs : List TradingPair
  grossProfitPct : ℚ
  netProfitPct : ℚ
  totalFeesPct : ℚ
  exchange : String
  executionSteps : List Step
  deriving DecidableEq, Repr

/-- Property `ArbitragePath.is_profitable`. -/
def ArbitragePath.isProfitable (p : ArbitragePath) : Prop := 0 < p.netProfitPct

/-- Whether a trading pair carries the (unordered) edge `{f, t}`. -/
def pairMatches (f t : String) (p : TradingPair) : Bool :=
  (p.base = f && p.quote = t) || (p.base = t && p.quote = f)

/-- The `pair_map` lookup of `_calculate_path_profit`.  The Python dict maps
both orientations `(base, quote)` and `(quote, base)` to the pair, with later
list entries overwriting earlier ones, and the caller falls back from
`(from, to)` to `(to, from)`; so the lookup finds the *last* pair whose token
set is `{f, t}`. -/
def pairLookup (pairs : List TradingPair) (f t : String) : Option TradingPair :=
  pairs.reverse.find? (pairMatches f t)

/-- The hop loop of `_calculate_path_profit`, threading the notional amount,
the accumulated fee percentage, the execution steps and the used pairs.
`.error ()` models the `DivisionByZero` raised by `amount / pair.ask` on a
buy-direction hop whose ask price is zero; `.ok none` is the missing-pair
early return (`None, 0.0, [], []`). -/
def calcPathGo (pairs : List TradingPair) :
    List String → ℚ → ℚ → List Step → List TradingPair →
    Except Unit (Option (ℚ × ℚ × List Step × List TradingPair))
  | f :: t :: rest, amount, feeAcc, steps, used =>
    match pairLookup pairs f t with
    | none => .ok none
    | some p =>
      if p.base = f then
        calcPathGo pairs (t :: rest) (amount * p.bid * (1 - p.feeRate))
          (feeAcc + p.feeRate * 100) (steps ++ [.sell f t p.bid]) (used ++ [p])
      else
        if p.ask = 0 then .error ()
        else
          calcPathGo pairs (t :: rest) (amount / p.ask * (1 - p.feeRate))
            (feeAcc + p.feeRate * 100) (steps ++ [.buy t f p.ask]) (used ++ [p])
  | _, amount, feeAcc, steps, used =>
    .ok (some ((amount - 1) * 100, feeAcc, steps, used))

/-- Method `TriangularFinder._calculate_path_profit`: start from one notional unit
of the first token and walk the hops. -/
def calcPathProfit (pathTokens : List String) (pairs : List TradingPair) :
    Except Unit (Option (ℚ × ℚ × List Step × List TradingPair)) :=
  calcPathGo pairs pathTokens 1 0 [] []

/-- Modelled from the spec (§4.3 step 4, path valuation): starting from a
notional amount of the first token, each hop multiplies by `bid` when the
pair's base is the from-token and otherwise divides by `ask`, then applies
`(1 - fee_rate)` multiplicatively.  Used as the independent reference value
for the reported `gross_profit_pct`. -/
def specFinalAmount (pairs : List TradingPair) :
    List String → ℚ → Option ℚ
  | f :: t :: rest, amount =>
    match pairLookup pairs f t with
    | none => none
    | some p =>
      let a' := if p.base = f then amount * p.bid else amount / p.ask
      specFinalAmount pairs (t :: rest) (a' * (1 - p.feeRate))
  | _, amount => some amount

/-- The 6 permutations of a token triple, in `itertools.permutations` order. -/
def permsOf (t : String × String × String) : List (String × String × String) :=
  [(t.1, t.2.1, t.2.2), (t.1, t.2.2, t.2.1),
   (t.2.1, t.1, t.2.2), (t.2.1, t.2.2, t.1),
   (t.2.2, t.1, t.2.1), (t.2.2, t.2.1, t.1)]

/-- Python `list(perm) + [perm[0]]`: the candidate cycle of a permutation. -/
def cycleOf (perm : String × String × String) : List String :=
  [perm.1, perm.2.1, perm.2.2, perm.1]

/-- The `ArbitragePath` record `_evaluate_triangle` builds from a successful
path valuation (`net_profit = profit - fees`). -/
def mkTriPath (exchange : String) (perm : String × String × String)
    (r : ℚ × ℚ × List Step × List TradingPair) : ArbitragePath :=
  { tokens := cycleOf perm
    pairs := r.2.2.2
    grossProfitPct := r.1
    netProfitPct := r.1 - r.2.1
    totalFeesPct := r.2.1
    exchange := exchange
    executionSteps := r.2.2.1 }

/-- One permutation step of `_evaluate_triangle`'s best-path fold.  The
Python `best_profit` starts at `-inf` and is updated (strictly-greater test)
together with `best_path`, so it always equals the gross profit stored in
the current best path; the fold therefore carries only `Option ArbitragePath`. -/
def triStep (pairs : List TradingPair) (exchange : String)
    (best : Option ArbitragePath) (perm : String × String × String) :
    Except Unit (Option ArbitragePath) :=
  match calcPathProfit (cycleOf perm) pairs with
  | .error e => .error e
  | .ok none => .ok best
  | .ok (some res) =>
    match best with
    | none => .ok (some (mkTriPath exchange perm res))
    | some bp =>
      if bp.grossProfitPct < res.1 then .ok (some (mkTriPath exchange perm res))
      else .ok best

/-- Method `TriangularFinder._evaluate_triangle`: try all 6 permutations and keep
the one with the highest `gross_profit_pct`. -/
def evalTriangle (t : String × String × String) (pairs : List TradingPair)
    (exchange : String) : Except Unit (Option ArbitragePath) :=
  (permsOf t).foldlM (triStep pairs exchange) none

/-! ## Token graph and triangle enumeration (`triangular_finder.py`) -/

/-- Adjacency list: Python's `Dict[str, List[str]]` in insertion order. -/
abbrev Graph := List (String × List String)

/-- Step `if token not in graph: graph[token] = []`. -/
def ensureKey (g : Graph) (x : String) : Graph :=
  if (alookup x g).isSome then g else g ++ [(x, [])]

/-- Step `if y not in graph[x]: graph[x].append(y)` (entry for `x` assumed
present; a missing key is left untouched, as in the source where both keys
are created first). -/
def addNbr (g : Graph) (x y : String) : Graph :=
  g.map (fun kv =>
    if kv.1 = x then (kv.1, if y ∈ kv.2 then kv.2 else kv.2 ++ [y]) else kv)

/-- Processing one pair in `_build_graph`. -/
def addPairEdges (g : Graph) (p : TradingPair) : Graph :=
  addNbr (addNbr (ensureKey (ensureKey g p.base) p.quote) p.base p.quote)
    p.quote p.base

/-- Method `TriangularFinder._build_graph`. -/
def buildGraph (pairs : List TradingPair) : Graph :=
  pairs.foldl addPairEdges []

/-- Lookup `graph.get(a, [])`: the neighbor list of token `a`. -/
def adjList (g : Graph) (a : String) : List String := (alookup a g).getD []

/-- Membership `b ∈ graph.get(a, [])`. -/
def memAdj (g : Graph) (a b : String) : Prop := b ∈ adjList g a

instance (g : Graph) (a b : String) : Decidable (memAdj g a b) := by
  unfold memAdj; infer_instance

/-- Python `tuple(sorted([a, b, c]))` for the lexicographic string order. -/
def sort3 (a b c : String) : String × String × String :=
  if a ≤ b then
    if b ≤ c then (a, b, c) else if a ≤ c then (a, c, b) else (c, a, b)
  else
    if a ≤ c then (b, a, c) else if b ≤ c then (b, c, a) else (c, b, a)

/-- Method `TriangularFinder._find_triangles`: brute-force triangle search,
deduplicated through a set of sorted triples.  The Python function returns
the set's elements as a list in unspecified iteration order; the set itself
is the faithful result. -/
def findTriangles (g : Graph) : Finset (String × String × String) :=
  (g.map Prod.fst).foldl
    (fun acc a =>
      (adjList g a).foldl
        (fun acc b =>
          (adjList g b).foldl
            (fun acc c =>
              if c ≠ a ∧ memAdj g c a then insert (sort3 a b c) acc else acc)
            acc)
        acc)
    ∅

/-! ## Profit calculator (`profit_calculator.py`) -/

/-- One row of `ProfitCalculator.EXCHANGE_FEES`. -/
structure FeeInfo where
  maker : ℚ
  taker : ℚ
  withdrawal : ℚ
  deriving DecidableEq, Repr

/-- Table `ProfitCalculator.EXCHANGE_FEES`. -/
def exchangeFees : List (String × FeeInfo) :=
  [("binance", { maker := 0.0010, taker := 0.0010, withdrawal := 0.0005 }),
   ("coinbase", { maker := 0.0040, taker := 0.0060, withdrawal := 0.0000 }),
   ("kraken", { maker := 0.0016, taker := 0.0026, withdrawal := 0.0010 }),
   ("kucoin", { maker := 0.0010, taker := 0.0010, withdrawal := 0.0003 }),
   ("okx", { maker := 0.0008, taker := 0.0010, withdrawal := 0.0004 }),
   ("uniswap", { maker := 0.0030, taker := 0.0030, withdrawal := 0.0000 }),
   ("sushiswap", { maker := 0.0030, taker := 0.0030, withdrawal := 0.0000 }),
   ("curve", { maker := 0.0004, taker := 0.0004, withdrawal := 0.0000 }),
   ("balancer", { maker := 0.0010, taker := 0.0010, withdrawal := 0.0000 })]

/-- Method `ProfitCalculator._get_fees`: normalized lookup with the documented
default `{maker: 0.001, taker: 0.001, withdrawal: 0.0005}` on a miss. -/
def getFees (exchange : String) : FeeInfo :=
  (alookup (normalizeVenue exchange) exchangeFees).getD
    { maker := 0.001, taker := 0.001, withdrawal := 0.0005 }

/-- Table `ProfitCalculator.GAS_COSTS`. -/
def gasCosts : List (String × ℕ) :=
  [("uniswap_swap", 150000), ("sushiswap_swap", 150000),
   ("curve_swap", 200000), ("balancer_swap", 180000),
   ("erc20_transfer", 65000)]

/-- Lookup `GAS_COSTS.get` with the `_swap`-suffixed key and default 150000. -/
def gasSwapUnits (exchange : String) : ℚ :=
  ((alookup (lowerStr exchange ++ "_swap") gasCosts).getD 150000 : ℕ)

/-- Calculator parameters (`ProfitCalculator.__init__`). -/
structure ProfitCalculator where
  gasPriceGwei : ℚ := 30
  ethPriceUsd : ℚ := 2500
  defaultSlippagePct : ℚ := 0.1
  deriving DecidableEq, Repr

/-- Python `SlippageEstimate` dataclass. -/
structure SlippageEstimate where
  baseSlippagePct : ℚ
  sizeFactor : ℚ
  liquidityFactor : ℚ
  totalSlippagePct : ℚ
  slippageCost : ℚ
  deriving DecidableEq, Repr

/-- Method `ProfitCalculator.estimate_slippage`. -/
def estimateSlippage (c : ProfitCalculator) (amount price : ℚ)
    (liquidityUsd : ℚ := 1000000) : SlippageEstimate :=
  let tradeValue := amount * price
  let baseSlippage := c.defaultSlippagePct
  let sizePct := tradeValue / liquidityUsd * 100
  let sizeFactor : ℚ :=
    if sizePct < 0.1 then 1 else if sizePct < 1 then 1.5
    else if sizePct < 5 then 2.5 else 5
  let liquidityFactor : ℚ :=
    if liquidityUsd < 100000 then 2 else if liquidityUsd < 1000000 then 1.5
    else 1
  let totalSlippagePct := baseSlippage * sizeFactor * liquidityFactor
  { baseSlippagePct := baseSlippage
    sizeFactor := sizeFactor
    liquidityFactor := liquidityFactor
    totalSlippagePct := totalSlippagePct
    slippageCost := tradeValue * (totalSlippagePct / 100) }

/-- Python `ProfitBreakdown` dataclass. -/
structure ProfitBreakdown where
  pair : String
  buyExchange : String
  sellExchange : String
  tradeAmount : ℚ
  buyPrice : ℚ
  sellPrice : ℚ
  grossProfit : ℚ
  grossProfitPct : ℚ
  buyFee : ℚ
  sellFee : ℚ
  withdrawalFee : ℚ
  gasCostUsd : ℚ
  slippageCost : ℚ
  totalCosts : ℚ
  netProfit : ℚ
  netProfitPct : ℚ
  netProfitUsd : ℚ
  breakevenSpreadPct : ℚ
  profitPerDollar : ℚ
  isProfitable : Bool
  deriving DecidableEq, Repr

/-- Method `ProfitCalculator.calculate`.  `.error ()` models the `DivisionByZero`
raised by `gross_profit / buy_cost` when `buy_cost = amount * buy_price` is
zero; no other division in the function can be reached with a zero divisor
(the remaining percentage divisions are guarded by `buy_cost > 0` in the
source and `gas_cost_usd / buy_price` is reached only when `buy_cost ≠ 0`,
which forces `buy_price ≠ 0`). -/
def calcProfit (c : ProfitCalculator) (pair buyExchange sellExchange : String)
    (buyPrice sellPrice amount : ℚ) (includeWithdrawal : Bool)
    (buyExchangeType sellExchangeType : ExchangeType) :
    Except Unit ProfitBreakdown :=
  let buyFees := getFees buyExchange
  let sellFees := getFees sellExchange
  let buyCost := amount * buyPrice
  let sellRevenue := amount * sellPrice
  let grossProfit := sellRevenue - buyCost
  if buyCost = 0 then .error ()
  else
    let grossProfitPct := grossProfit / buyCost * 100
    let buyFee := buyCost * buyFees.taker
    let sellFee := sellRevenue * sellFees.taker
    let withdrawalFee := if includeWithdrawal then amount * buyFees.withdrawal else 0
    let gasCostUsd :=
      (if buyExchangeType = .DEX then
        gasSwapUnits buyExchange * c.gasPriceGwei * (1 / 1000000000) * c.ethPriceUsd
       else 0) +
      (if sellExchangeType = .DEX then
        gasSwapUnits sellExchange * c.gasPriceGwei * (1 / 1000000000) * c.ethPriceUsd
       else 0)
    let slippage := estimateSlippage c amount buyPrice
    let slippageCost := slippage.slippageCost
    let totalCosts0 := buyFee + sellFee + withdrawalFee + slippageCost
    let totalCosts :=
      if 0 < gasCostUsd then totalCosts0 + gasCostUsd / buyPrice else totalCosts0
    let netProfit := grossProfit - totalCosts
    let netProfitPct := if 0 < buyCost then netProfit / buyCost * 100 else 0
    let netProfitUsd := netProfit * buyPrice
    let totalFeePct := if 0 < buyCost then (buyFee + sellFee) / buyCost * 100 else 0
    let breakevenSpreadPct := totalFeePct + slippage.totalSlippagePct
    let profitPerDollar := if 0 < buyCost then netProfitUsd / buyCost else 0
    .ok { pair := pair
          buyExchange := buyExchange
          sellExchange := sellExchange
          tradeAmount := amount
          buyPrice := buyPrice
          sellPrice := sellPrice
          grossProfit := grossProfit
          grossProfitPct := grossProfitPct
          buyFee := buyFee
          sellFee := sellFee
          withdrawalFee := withdrawalFee
          gasCostUsd := gasCostUsd
          slippageCost := slippageCost
          totalCosts := totalCosts
          netProfit := netProfit
          netProfitPct := netProfitPct
          netProfitUsd := netProfitUsd
          breakevenSpreadPct := breakevenSpreadPct
          profitPerDollar := profitPerDollar
          isProfitable := decide (0 < netProfit) }

/-- The simplified total fee rate inverted by `calculate_minimum_amount`:
`buy_taker + sell_taker + buy_withdrawal + default_slippage_pct / 100`. -/
def minAmountFeeTotal (c : ProfitCalculator) (buyExchange sellExchange : String) : ℚ :=
  (getFees buyExchange).taker + (getFees sellExchange).taker +
    (getFees buyExchange).withdrawal + c.defaultSlippagePct / 100

/-- The net spread fraction of `calculate_minimum_amount`:
`spread_pct / 100 - total_fee_pct`. -/
def minAmountNetSpread (c : ProfitCalculator) (buyExchange sellExchange : String)
    (spreadPct : ℚ) : ℚ :=
  spreadPct / 100 - minAmountFeeTotal c buyExchange sellExchange

/-- Method `ProfitCalculator.calculate_minimum_amount` (sentinel `-1` when the
spread can never be profitable under the simplified fee model). -/
def calcMinAmount (c : ProfitCalculator) (buyExchange sellExchange : String)
    (spreadPct : ℚ) (targetProfitUsd : ℚ := 10) : ℚ :=
  let netSpread := minAmountNetSpread c buyExchange sellExchange spreadPct
  if netSpread ≤ 0 then -1 else targetProfitUsd / netSpread

/-! ## Helper lemmas -/

lemma stalenessScore_mono {q q' : PriceQuote} (h : q.staleness ≤ q'.staleness) :
    stalenessScore q ≤ stalenessScore q' := by
  unfold stalenessScore
  by_cases h1 : 10 < q.staleness
  · rw [if_pos h1, if_pos (h1.trans_le h)]
  · rw [if_neg h1]
    exact Nat.zero_le _

lemma spreadScore_mono {x y : ℚ} (h : x ≤ y) : spreadScore x ≤ spreadScore y := by
  unfold spreadScore
  by_cases h5 : 5 < x
  · rw [if_pos h5, if_pos (h5.trans_le h)]
  · rw [if_neg h5]
    by_cases h2 : 2 < x
    · rw [if_pos h2]
      by_cases h5' : 5 < y
      · rw [if_pos h5']
        omega
      · rw [if_neg h5', if_pos (h2.trans_le h)]
    · rw [if_neg h2]
      exact Nat.zero_le _

lemma volumeScore_antitone {bq sq bq' sq' : PriceQuote}
    (h : min bq'.volume24h sq'.volume24h ≤ min bq.volume24h sq.volume24h) :
    volumeScore bq sq ≤ volumeScore bq' sq' := by
  unfold volumeScore
  by_cases h1 : min bq.volume24h sq.volume24h < 1000
  · rw [if_pos h1, if_pos (h.trans_lt h1)]
  · rw [if_neg h1]
    by_cases h2 : min bq.volume24h sq.volume24h < 10000
    · rw [if_pos h2]
      by_cases h1' : min bq'.volume24h sq'.volume24h < 1000
      · rw [if_pos h1']
        omega
      · rw [if_neg h1', if_pos (h.trans_lt h2)]
    · rw [if_neg h2]
      exact Nat.zero_le _

lemma riskBucket_rank_mono {a b : ℕ} (h : a ≤ b) :
    (riskBucket a).rank ≤ (riskBucket b).rank := by
  unfold riskBucket
  split_ifs <;> simp [RiskLevel.rank] <;> omega

/-! ## C7 — risk bucket monotonicity -/

/-- C7: the risk assessment is monotonic in each of its four inputs: with
staleness of both legs, net spread, and the number of DEX legs not
decreased, and the smaller 24h volume not increased, the resulting risk
bucket (LOW < MEDIUM < HIGH < EXTREME) never decreases. -/
theorem risk_bucket_monotone
    (bq sq bq' sq' : PriceQuote) (net net' : ℚ)
    (hb : bq.staleness ≤ bq'.staleness) (hs : sq.staleness ≤ sq'.staleness)
    (hn : net ≤ net')
    (hd : dexScore bq + dexScore sq ≤ dexScore bq' + dexScore sq')
    (hv : min bq'.volume24h sq'.volume24h ≤ min bq.volume24h sq.volume24h) :
    (assessRisk bq sq net).rank ≤ (assessRisk bq' sq' net').rank := by
  unfold assessRisk
  apply riskBucket_rank_mono
  unfold riskScore
  have h1 := stalenessScore_mono hb
  have h2 := stalenessScore_mono hs
  have h3 := spreadScore_mono hn
  have h4 := volumeScore_antitone hv
  omega

/-- Witness for C7 at a concrete pair of quote pairs. -/
theorem risk_bucket_monotone_witness :
    (assessRisk
      { exchange := "Binance", exchangeType := .CEX, pair := "ETH/USDC",
        bid := 2541.20, ask := 2541.50, mid := 2541.35, spreadPct := 0,
        volume24h := 50000, staleness := 1 }
      { exchange := "Coinbase", exchangeType := .CEX, pair := "ETH/USDC",
        bid := 2543.80, ask := 2544.10, mid := 2543.95, spreadPct := 0,
        volume24h := 50000, staleness := 1 } 1).rank ≤
    (assessRisk
      { exchange := "Binance", exchangeType := .CEX, pair := "ETH/USDC",
        bid := 2541.20, ask := 2541.50, mid := 2541.35, spreadPct := 0,
        volume24h := 500, staleness := 20 }
      { exchange := "Uniswap V3", exchangeType := .DEX, pair := "ETH/USDC",
        bid := 2543.80, ask := 2544.10, mid := 2543.95, spreadPct := 0,
        volume24h := 50000, staleness := 1 } 6).rank :=
  risk_bucket_monotone _ _ _ _ _ _ (by norm_num) (by norm_num) (by norm_num)
    (by decide) (by norm_num)

/-! ## C10 — profit_for_amount interprets its argument as a quote budget -/

/-- C10: `profit_for_amount(amount)` equals
`amount * net_profit_per_unit / buy_price`, i.e. `amount / buy_price` units
are bought — the amount is a quote-currency budget, not a base-unit count. -/
theorem profit_for_amount_quote_budget
    (o : ArbitrageOpportunity) (amount : ℚ) :
    o.profitForAmount amount = amount / o.buyPrice * o.netProfitPerUnit := by
  unfold ArbitrageOpportunity.profitForAmount
  ring

/-! ## C6 — calculate_minimum_amount -/

lemma getFees_binance :
    getFees "binance" = { maker := 0.0010, taker := 0.0010, withdrawal := 0.0005 } := rfl

lemma getFees_coinbase :
    getFees "coinbase" = { maker := 0.0040, taker := 0.0060, withdrawal := 0.0000 } := rfl

/-- Counterexample for C6 as stated: with buy and sell venue `binance`, a
1% spread and a target profit of 1000 USD, `calculate_minimum_amount`
returns 2000000/13 ≈ 153846.15, but running `calculate` at that amount
(prices 1 and 1.01, so the same 1% spread, the amount in base units equal
to its USD value) nets only 4980/13 ≈ 383.08 — less than half the
requested target, not within any small tolerance of it (the deviation
comes from the size-scaled slippage factor, the revenue-based sell fee and
the base-unit withdrawal fee, none of which the linear inversion models). -/
theorem min_amount_roundtrip_cex :
    calcMinAmount {} "binance" "binance" 1 1000 = 2000000 / 13 ∧
    (calcProfit {} "ETH/USDT" "binance" "binance" 1 (101 / 100) (2000000 / 13)
        true .CEX .CEX).map ProfitBreakdown.netProfit = .ok (4980 / 13) ∧
    (4980 / 13 : ℚ) < 1000 / 2 := by
  have hns : minAmountNetSpread {} "binance" "binance" 1 = 13 / 2000 := by
    show (1 : ℚ) / 100 - (0.0010 + 0.0010 + 0.0005 + 0.1 / 100) = 13 / 2000
    norm_num
  refine ⟨?_, ?_, by norm_num⟩
  · simp only [calcMinAmount, hns]
    norm_num
  · have hgas : (if ExchangeType.CEX = ExchangeType.DEX then
        gasSwapUnits "binance" * 30 * (1 / 1000000000) * 2500 else 0) = (0 : ℚ) := rfl
    norm_num [calcProfit, estimateSlippage, getFees_binance, Except.map, hgas]

/-- C6 amended: `calculate_minimum_amount` inverts its *own simplified
linear fee model*: it returns `target / net_spread` with
`net_spread = spread_pct/100 - (buy_taker + sell_taker + buy_withdrawal +
default_slippage_pct/100)`, so the returned amount satisfies
`amount * net_spread = target` exactly; it returns the sentinel `-1` when
the spread is at most that total fee rate.  (It does not round-trip through
`calculate`, whose size-scaled slippage and fee bases differ.) -/
theorem min_amount_linear_model
    (c : ProfitCalculator) (be se : String) (sp tgt : ℚ) :
    (minAmountNetSpread c be se sp ≤ 0 → calcMinAmount c be se sp tgt = -1) ∧
    (0 < minAmountNetSpread c be se sp →
      calcMinAmount c be se sp tgt * minAmountNetSpread c be se sp = tgt) := by
  unfold calcMinAmount
  constructor
  · intro h
    rw [if_pos h]
  · intro h
    rw [if_neg (not_le.mpr h)]
    exact div_mul_cancel₀ tgt (ne_of_gt h)

/-- Witness for C6 (amended) at `binance`/`coinbase`, 1% spread, sentinel
case at 0.5% spread (total fee rate there is 0.85%). -/
theorem min_amount_linear_model_witness :
    calcMinAmount {} "binance" "coinbase" 1 10 *
      minAmountNetSpread {} "binance" "coinbase" 1 = 10 ∧
    calcMinAmount {} "binance" "coinbase" (1 / 2) 10 = -1 :=
  ⟨(min_amount_linear_model {} "binance" "coinbase" 1 10).2
     (by norm_num [minAmountNetSpread, minAmountFeeTotal, getFees_binance,
                   getFees_coinbase]),
   (min_amount_linear_model {} "binance" "coinbase" (1 / 2) 10).1
     (by norm_num [minAmountNetSpread, minAmountFeeTotal, getFees_binance,
                   getFees_coinbase])⟩

/-! ## C9 — no non-positive-amount rejection in calculate -/

/-- Counterexample for C9: `calculate` performs no input validation; with
the negative trade amount `-1` it runs to completion and returns a full
`ProfitBreakdown` (recording the negative amount), rather than rejecting
the input before computation. -/
theorem calc_negative_amount_cex :
    (calcProfit {} "ETH/USDC" "binance" "coinbase" 100 110 (-1)
        true .CEX .CEX).map ProfitBreakdown.tradeAmount = .ok (-1) := by
  norm_num [calcProfit, Except.map]

/-- C9 amended: `calculate` does not validate the trade amount.  For every
amount with `amount * buy_price ≠ 0` — including every negative amount at a
nonzero price — it computes and returns a `ProfitBreakdown`; only
`amount * buy_price = 0` fails, and then through the `DivisionByZero`
raised while computing `gross_profit_pct`, not through a rejection before
computation begins. -/
theorem calc_amount_validation
    (c : ProfitCalculator) (pair be se : String) (bp sp amt : ℚ) (iw : Bool)
    (bty sty : ExchangeType) :
    (amt * bp ≠ 0 → ∃ bd, calcProfit c pair be se bp sp amt iw bty sty = .ok bd ∧
      bd.tradeAmount = amt) ∧
    (amt * bp = 0 → calcProfit c pair be se bp sp amt iw bty sty = .error ()) := by
  constructor
  · intro h
    simp only [calcProfit, if_neg h]
    exact ⟨_, rfl, rfl⟩
  · intro h
    simp only [calcProfit, if_pos h]

/-- Witness for C9 (amended): a breakdown is produced for amount `-1`, and
amount `0` raises. -/
theorem calc_amount_validation_witness :
    (∃ bd, calcProfit {} "ETH/USDC" "binance" "coinbase" 100 110 (-1)
        true .CEX .CEX = .ok bd ∧ bd.tradeAmount = -1) ∧
    calcProfit {} "ETH/USDC" "binance" "coinbase" 100 110 0
        true .CEX .CEX = .error () :=
  ⟨(calc_amount_validation {} "ETH/USDC" "binance" "coinbase" 100 110 (-1)
      true .CEX .CEX).1 (by norm_num),
   (calc_amount_validation {} "ETH/USDC" "binance" "coinbase" 100 110 0
      true .CEX .CEX).2 (by norm_num)⟩

/-! ## C1 — the gross-spread gate of the direct evaluator -/

/-- A degenerate but invariant-respecting quote (`ask ≥ bid`) whose ask
price is zero. -/
def quoteZeroAsk : PriceQuote :=
  { exchange := "alpha", exchangeType := .CEX, pair := "T/U", bid := -1,
    ask := 0, mid := -1 / 2, spreadPct := 0, volume24h := 1000000,
    staleness := 1 }

/-- A normal quote on a second venue with a positive bid. -/
def quoteUnitBid : PriceQuote :=
  { exchange := "beta", exchangeType := .CEX, pair := "T/U", bid := 1,
    ask := 2, mid := 3 / 2, spreadPct := 50, volume24h := 1000000,
    staleness := 1 }

/-- Counterexample for C1 as stated: with a zero-ask buy quote and a
positive-bid sell quote we have `sell.bid > buy.ask`, yet the evaluator
does not return an opportunity record — the division
`gross_profit / buy_quote.ask` raises `DivisionByZero`. -/
theorem direct_eval_zero_ask_cex :
    evalOpp {} quoteZeroAsk quoteUnitBid = .error () := by
  norm_num [evalOpp, quoteZeroAsk, quoteUnitBid]

/-- C1 amended: the evaluator returns null exactly when
`sell.bid ≤ buy.ask`; whenever `sell.bid > buy.ask` *and the buy ask is
nonzero* it returns an opportunity record; when `sell.bid > buy.ask = 0`
the spread-percentage division raises instead of returning. -/
theorem direct_eval_gate (s : Scanner) (bq sq : PriceQuote) :
    (evalOpp s bq sq = .ok none ↔ sq.bid ≤ bq.ask) ∧
    (bq.ask ≠ 0 → bq.ask < sq.bid →
      evalOpp s bq sq = .ok (some (mkOpportunity s bq sq))) ∧
    (bq.ask = 0 → bq.ask < sq.bid → evalOpp s bq sq = .error ()) := by
  unfold evalOpp
  by_cases h1 : sq.bid ≤ bq.ask
  · rw [if_pos h1]
    exact ⟨⟨fun _ => h1, fun _ => rfl⟩,
           fun _ h => absurd h (not_lt.mpr h1),
           fun _ h => absurd h (not_lt.mpr h1)⟩
  · rw [if_neg h1]
    by_cases h2 : bq.ask = 0
    · rw [if_pos h2]
      exact ⟨⟨fun h => by simp at h, fun h => absurd h h1⟩,
             fun hne _ => absurd h2 hne, fun _ _ => rfl⟩
    · rw [if_neg h2]
      exact ⟨⟨fun h => by simp at h, fun h => absurd h h1⟩,
             fun _ _ => rfl, fun h0 _ => absurd h0 h2⟩

/-- A concrete buy-side quote for the witnesses (ask 100). -/
def wBuyQuote : PriceQuote :=
  { exchange := "binance", exchangeType := .CEX, pair := "ETH/USDC",
    bid := 99, ask := 100, mid := 199 / 2, spreadPct := 1,
    volume24h := 50000, staleness := 1 }

/-- A concrete sell-side quote for the witnesses (bid 101). -/
def wSellQuote : PriceQuote :=
  { exchange := "kraken", exchangeType := .CEX, pair := "ETH/USDC",
    bid := 101, ask := 102, mid := 203 / 2, spreadPct := 1,
    volume24h := 50000, staleness := 1 }

/-- Witness for C1 (amended) at a concrete profitable quote pair. -/
theorem direct_eval_gate_witness :
    (evalOpp {} wBuyQuote wSellQuote = .ok none ↔
      wSellQuote.bid ≤ wBuyQuote.ask) ∧
    evalOpp {} wBuyQuote wSellQuote =
      .ok (some (mkOpportunity {} wBuyQuote wSellQuote)) :=
  ⟨(direct_eval_gate {} wBuyQuote wSellQuote).1,
   (direct_eval_gate {} wBuyQuote wSellQuote).2.1
     (by norm_num [wBuyQuote]) (by norm_num [wBuyQuote, wSellQuote])⟩

/-! ## C5 — gas cost scoping: reported-only in the evaluator, folded into
net profit in the calculator -/

lemma gasSwapUnits_nonneg (e : String) : 0 ≤ gasSwapUnits e := by
  unfold gasSwapUnits
  exact_mod_cast Nat.zero_le _

lemma gas_if_total (T G bp : ℚ) (hG : 0 ≤ G) :
    (if 0 < G then T + G / bp else T) = T + G / bp := by
  by_cases h : 0 < G
  · rw [if_pos h]
  · rw [if_neg h, le_antisymm (not_lt.mp h) hG, zero_div, add_zero]

/-- C5: in the direct evaluator, `net_profit_per_unit` and `net_spread_pct`
subtract only the two taker-fee amounts from the gross spread — the DEX gas
estimate is reported in its own `estimated_gas_usd` field and never
subtracted; in the profit calculator, by contrast, the USD gas cost of a
DEX leg is converted to base-currency units by dividing by `buy_price` and
folded into `total_costs`, hence into `net_profit`. -/
theorem gas_cost_scoping :
    (∀ (s : Scanner) (bq sq : PriceQuote) (o : ArbitrageOpportunity),
      evalOpp s bq sq = .ok (some o) →
        o.netProfitPerUnit = (sq.bid - bq.ask) -
          (bq.ask * takerFeeFor bq.exchange + sq.bid * takerFeeFor sq.exchange) ∧
        o.netSpreadPct = ((sq.bid - bq.ask) -
          (bq.ask * takerFeeFor bq.exchange + sq.bid * takerFeeFor sq.exchange)) /
            bq.ask * 100 ∧
        o.estimatedGasUsd = scanGasEstimate s bq sq) ∧
    (∀ (c : ProfitCalculator) (pair be se : String) (bp sp amt : ℚ) (iw : Bool)
      (bty sty : ExchangeType) (bd : ProfitBreakdown),
      0 ≤ c.gasPriceGwei → 0 ≤ c.ethPriceUsd → bty = .DEX ∨ sty = .DEX →
      calcProfit c pair be se bp sp amt iw bty sty = .ok bd →
        bd.totalCosts = bd.buyFee + bd.sellFee + bd.withdrawalFee +
          bd.slippageCost + bd.gasCostUsd / bd.buyPrice ∧
        bd.netProfit = bd.grossProfit - bd.totalCosts) := by
  constructor
  · intro s bq sq o h
    unfold evalOpp at h
    by_cases h1 : sq.bid ≤ bq.ask
    · rw [if_pos h1] at h
      simp at h
    · rw [if_neg h1] at h
      by_cases h2 : bq.ask = 0
      · rw [if_pos h2] at h
        simp at h
      · rw [if_neg h2] at h
        simp only [Except.ok.injEq, Option.some.injEq] at h
        subst h
        exact ⟨rfl, rfl, rfl⟩
  · intro c pair be se bp sp amt iw bty sty bd hg he _hdex h
    simp only [calcProfit] at h
    by_cases h0 : amt * bp = 0
    · rw [if_pos h0] at h
      cases h
    · rw [if_neg h0] at h
      simp only [Except.ok.injEq] at h
      subst h
      refine ⟨?_, rfl⟩
      dsimp only
      apply gas_if_total
      have c9 : (0 : ℚ) ≤ 1 / 1000000000 := by norm_num
      apply add_nonneg <;> (split_ifs with hh)
      · exact mul_nonneg (mul_nonneg (mul_nonneg (gasSwapUnits_nonneg be) hg) c9) he
      · exact le_refl 0
      · exact mul_nonneg (mul_nonneg (mul_nonneg (gasSwapUnits_nonneg se) hg) c9) he
      · exact le_refl 0

/-- Witness for C5: the evaluator side at a concrete CEX quote pair, and
the calculator side at a concrete DEX-buy trade. -/
theorem gas_cost_scoping_witness :
    ((mkOpportunity {} wBuyQuote wSellQuote).netProfitPerUnit =
      (wSellQuote.bid - wBuyQuote.ask) -
        (wBuyQuote.ask * takerFeeFor wBuyQuote.exchange +
          wSellQuote.bid * takerFeeFor wSellQuote.exchange) ∧
     (mkOpportunity {} wBuyQuote wSellQuote).netSpreadPct =
      ((wSellQuote.bid - wBuyQuote.ask) -
        (wBuyQuote.ask * takerFeeFor wBuyQuote.exchange +
          wSellQuote.bid * takerFeeFor wSellQuote.exchange)) / wBuyQuote.ask * 100 ∧
     (mkOpportunity {} wBuyQuote wSellQuote).estimatedGasUsd =
      scanGasEstimate {} wBuyQuote wSellQuote) ∧
    ∃ bd, calcProfit {} "ETH/USDC" "uniswap" "binance" 100 110 2
        true .DEX .CEX = .ok bd ∧
      bd.totalCosts = bd.buyFee + bd.sellFee + bd.withdrawalFee +
        bd.slippageCost + bd.gasCostUsd / bd.buyPrice ∧
      bd.netProfit = bd.grossProfit - bd.totalCosts := by
  have hcalc : ∃ bd, calcProfit {} "ETH/USDC" "uniswap" "binance" 100 110 2
      true .DEX .CEX = .ok bd := by
    simp only [calcProfit]
    rw [if_neg (by norm_num : ¬((2 : ℚ) * 100 = 0))]
    exact ⟨_, rfl⟩
  obtain ⟨bd, hbd⟩ := hcalc
  refine ⟨gas_cost_scoping.1 {} wBuyQuote wSellQuote _ ?_,
          bd, hbd, gas_cost_scoping.2 {} "ETH/USDC" "uniswap" "binance"
            100 110 2 true .DEX .CEX bd (by norm_num) (by norm_num)
            (Or.inl rfl) hbd⟩
  show evalOpp {} wBuyQuote wSellQuote = _
  unfold evalOpp
  rw [if_neg (by norm_num [wBuyQuote, wSellQuote]),
      if_neg (by norm_num [wBuyQuote])]

/-! ## C3/C4 — triangular path valuation and permutation search -/

lemma except_bind_error {α β : Type} (e : Unit) (k : α → Except Unit β) :
    (Except.error e >>= k) = Except.error e := rfl

lemma except_bind_ok {α β : Type} (a : α) (k : α → Except Unit β) :
    (Except.ok a >>= k) = k a := rfl

lemma specFinalAmount_step (pairs : List TradingPair) {f0 t : String}
    (rest : List String) (amt : ℚ) {p : TradingPair}
    (hp : pairLookup pairs f0 t = some p) :
    specFinalAmount pairs (f0 :: t :: rest) amt =
      specFinalAmount pairs (t :: rest)
        ((if p.base = f0 then amt * p.bid else amt / p.ask) * (1 - p.feeRate)) := by
  rw [specFinalAmount, hp]

lemma calcPathGo_spec :
    ∀ (toks : List String) (pairs : List TradingPair) (amt feeAcc : ℚ)
      (st : List Step) (u : List TradingPair) (g f : ℚ) (st' : List Step)
      (u' : List TradingPair),
      calcPathGo pairs toks amt feeAcc st u = .ok (some (g, f, st', u')) →
      ∃ A tail, specFinalAmount pairs toks amt = some A ∧ g = (A - 1) * 100 ∧
        u' = u ++ tail ∧
        f = feeAcc + (tail.map (fun p => p.feeRate * 100)).sum := by
  intro toks
  induction toks with
  | nil =>
    intro pairs amt feeAcc st u g f st' u' h
    simp only [calcPathGo, Except.ok.injEq, Option.some.injEq,
      Prod.mk.injEq] at h
    obtain ⟨hg, hf, -, hu⟩ := h
    exact ⟨amt, [], rfl, hg.symm, by rw [← hu, List.append_nil],
           by rw [← hf]; simp⟩
  | cons f0 tl IH =>
    cases tl with
    | nil =>
      intro pairs amt feeAcc st u g f st' u' h
      simp only [calcPathGo, Except.ok.injEq, Option.some.injEq,
        Prod.mk.injEq] at h
      obtain ⟨hg, hf, -, hu⟩ := h
      exact ⟨amt, [], rfl, hg.symm, by rw [← hu, List.append_nil],
             by rw [← hf]; simp⟩
    | cons t rest =>
      intro pairs amt feeAcc st u g f st' u' h
      rw [calcPathGo] at h
      cases hp : pairLookup pairs f0 t with
      | none =>
        rw [hp] at h
        simp at h
      | some p =>
        rw [hp] at h
        simp only [] at h
        by_cases hb : p.base = f0
        · rw [if_pos hb] at h
          obtain ⟨A, tail, hA, hg, hu, hf⟩ := IH pairs _ _ _ _ _ _ _ _ h
          refine ⟨A, p :: tail, ?_, hg, ?_, ?_⟩
          · rw [specFinalAmount_step pairs rest amt hp, if_pos hb]
            exact hA
          · rw [hu, List.append_assoc, List.singleton_append]
          · rw [hf, List.map_cons, List.sum_cons]
            ring
        · rw [if_neg hb] at h
          by_cases ha : p.ask = 0
          · rw [if_pos ha] at h
            cases h
          · rw [if_neg ha] at h
            obtain ⟨A, tail, hA, hg, hu, hf⟩ := IH pairs _ _ _ _ _ _ _ _ h
            refine ⟨A, p :: tail, ?_, hg, ?_, ?_⟩
            · rw [specFinalAmount_step pairs rest amt hp, if_neg hb]
              exact hA
            · rw [hu, List.append_assoc, List.singleton_append]
            · rw [hf, List.map_cons, List.sum_cons]
              ring

lemma triStep_error {pairs : List TradingPair} {ex : String}
    {acc : Option ArbitragePath} {q : String × String × String} {e : Unit}
    (hc : calcPathProfit (cycleOf q) pairs = .error e) :
    triStep pairs ex acc q = .error e := by
  rw [triStep.eq_def, hc]

lemma triStep_none {pairs : List TradingPair} {ex : String}
    {acc : Option ArbitragePath} {q : String × String × String}
    (hc : calcPathProfit (cycleOf q) pairs = .ok none) :
    triStep pairs ex acc q = .ok acc := by
  rw [triStep.eq_def, hc]

lemma triStep_some_base {pairs : List TradingPair} {ex : String}
    {q : String × String × String} {r : ℚ × ℚ × List Step × List TradingPair}
    (hc : calcPathProfit (cycleOf q) pairs = .ok (some r)) :
    triStep pairs ex none q = .ok (some (mkTriPath ex q r)) := by
  rw [triStep.eq_def, hc]

lemma triStep_some_upd {pairs : List TradingPair} {ex : String}
    {bp : ArbitragePath} {q : String × String × String}
    {r : ℚ × ℚ × List Step × List TradingPair}
    (hc : calcPathProfit (cycleOf q) pairs = .ok (some r)) :
    triStep pairs ex (some bp) q =
      (if bp.grossProfitPct < r.1 then .ok (some (mkTriPath ex q r))
       else .ok (some bp)) := by
  rw [triStep.eq_def, hc]

lemma triFold_spec (pairs : List TradingPair) (ex : String) :
    ∀ (L : List (String × String × String)) (acc res : Option ArbitragePath),
      L.foldlM (triStep pairs ex) acc = .ok res →
      (res = none ↔ acc = none ∧
        ∀ q ∈ L, calcPathProfit (cycleOf q) pairs = .ok none) ∧
      (∀ p, res = some p →
        (acc = some p ∨ ∃ q ∈ L, ∃ r,
          calcPathProfit (cycleOf q) pairs = .ok (some r) ∧
            p = mkTriPath ex q r) ∧
        (∀ a, acc = some a → a.grossProfitPct ≤ p.grossProfitPct) ∧
        (∀ q ∈ L, ∀ r, calcPathProfit (cycleOf q) pairs = .ok (some r) →
          r.1 ≤ p.grossProfitPct)) := by
  intro L
  induction L with
  | nil =>
    intro acc res h
    rw [List.foldlM_nil] at h
    have hres : acc = res :=
      Except.ok.inj (show Except.ok acc = Except.ok res from h)
    subst hres
    constructor
    · exact ⟨fun hn => ⟨hn, by simp⟩, fun hn => hn.1⟩
    · intro p hp
      refine ⟨Or.inl hp, ?_, by simp⟩
      intro a ha
      rw [ha] at hp
      rw [Option.some.inj hp]
  | cons q L IH =>
    intro acc res h
    rw [List.foldlM_cons] at h
    cases hc : calcPathProfit (cycleOf q) pairs with
    | error e =>
      rw [triStep_error hc, except_bind_error] at h
      cases h
    | ok ro =>
      cases ro with
      | none =>
        rw [triStep_none hc, except_bind_ok] at h
        obtain ⟨ih1, ih2⟩ := IH acc res h
        constructor
        · rw [ih1]
          constructor
          · rintro ⟨ha, hall⟩
            refine ⟨ha, fun q' hq' => ?_⟩
            rcases List.mem_cons.mp hq' with hq' | hq'
            · rw [hq']
              exact hc
            · exact hall q' hq'
          · rintro ⟨ha, hall⟩
            exact ⟨ha, fun q' hq' => hall q' (List.mem_cons_of_mem _ hq')⟩
        · intro p hp
          obtain ⟨hprov, hacc, hbound⟩ := ih2 p hp
          refine ⟨?_, hacc, ?_⟩
          · rcases hprov with hprov | ⟨q', hq', r, hr, hpr⟩
            · exact Or.inl hprov
            · exact Or.inr ⟨q', List.mem_cons_of_mem _ hq', r, hr, hpr⟩
          · intro q' hq' r hr
            rcases List.mem_cons.mp hq' with hq' | hq'
            · rw [hq', hc] at hr
              cases Except.ok.inj hr
            · exact hbound q' hq' r hr
      | some r0 =>
        have hstep : ∃ acc', triStep pairs ex acc q = .ok (some acc') ∧
            (∀ a, acc = some a → a.grossProfitPct ≤ acc'.grossProfitPct) ∧
            r0.1 ≤ acc'.grossProfitPct ∧
            (acc = some acc' ∨ acc' = mkTriPath ex q r0) := by
          cases acc with
          | none =>
            exact ⟨mkTriPath ex q r0, triStep_some_base hc,
                   (fun a ha => by cases ha), le_refl _, Or.inr rfl⟩
          | some bp =>
            by_cases hlt : bp.grossProfitPct < r0.1
            · refine ⟨mkTriPath ex q r0, ?_, ?_, le_refl _, Or.inr rfl⟩
              · rw [triStep_some_upd hc, if_pos hlt]
              · intro a ha
                rw [← Option.some.inj ha]
                exact le_of_lt hlt
            · refine ⟨bp, ?_, ?_, not_lt.mp hlt, Or.inl rfl⟩
              · rw [triStep_some_upd hc, if_neg hlt]
              · intro a ha
                rw [← Option.some.inj ha]
        obtain ⟨acc', hstep', haccle, hr0le, hprov'⟩ := hstep
        rw [hstep', except_bind_ok] at h
        obtain ⟨ih1, ih2⟩ := IH (some acc') res h
        constructor
        · constructor
          · intro hres
            obtain ⟨habs, -⟩ := ih1.mp hres
            cases habs
          · rintro ⟨-, hall⟩
            have hq0 := hall q (List.mem_cons_self _ _)
            rw [hc] at hq0
            cases Except.ok.inj hq0
        · intro p hp
          obtain ⟨hprov, hacc, hbound⟩ := ih2 p hp
          have hacc'le : acc'.grossProfitPct ≤ p.grossProfitPct :=
            hacc acc' rfl
          refine ⟨?_, ?_, ?_⟩
          · rcases hprov with hprov | ⟨q', hq', r, hr, hpr⟩
            · have hpa : acc' = p := Option.some.inj hprov
              rcases hprov' with hped | hped
              · rw [← hpa]
                exact Or.inl hped
              · exact Or.inr ⟨q, List.mem_cons_self _ _, r0, hc,
                  by rw [← hpa, hped]⟩
            · exact Or.inr ⟨q', List.mem_cons_of_mem _ hq', r, hr, hpr⟩
          · intro a ha
            rcases hprov' with hped | hped
            · rw [ha] at hped
              rw [Option.some.inj hped]
              exact hacc'le
            · exact le_trans (haccle a ha) hacc'le
          · intro q' hq' r hr
            rcases List.mem_cons.mp hq' with hq' | hq'
            · rw [hq', hc] at hr
              have : r0 = r := Option.some.inj (Except.ok.inj hr)
              rw [← this]
              exact le_trans hr0le hacc'le
            · exact hbound q' hq' r hr

lemma except_pure {α : Type} (a : α) : (pure a : Except Unit α) = Except.ok a := rfl

lemma triFold_all_none (pairs : List TradingPair) (ex : String) :
    ∀ (L : List (String × String × String)) (acc : Option ArbitragePath),
      (∀ q ∈ L, calcPathProfit (cycleOf q) pairs = .ok none) →
      L.foldlM (triStep pairs ex) acc = .ok acc := by
  intro L
  induction L with
  | nil =>
    intro acc _
    rw [List.foldlM_nil, except_pure]
  | cons q L IH =>
    intro acc hall
    rw [List.foldlM_cons, triStep_none (hall q (List.mem_cons_self _ _)),
      except_bind_ok]
    exact IH acc (fun q' hq' => hall q' (List.mem_cons_of_mem _ hq'))

/-! ## C3 — triangular path valuation -/

/-- C3: a successful path valuation reports
`gross_profit_pct = (final_amount - 1) * 100` for the final amount obtained
by walking the hops (bid-multiply when the pair's base is the from-token,
ask-divide otherwise, then a multiplicative `(1 - fee_rate)`),
`total_fees_pct` as the sum of `fee_rate * 100` over the hop pairs, and the
triangle evaluator sets `net_profit_pct = gross_profit_pct -
total_fees_pct` on top of the already fee-adjusted amount. -/
theorem tri_path_valuation :
    (∀ (pairs : List TradingPair) (toks : List String) (g f : ℚ)
      (st : List Step) (u : List TradingPair),
      calcPathProfit toks pairs = .ok (some (g, f, st, u)) →
      ∃ A, specFinalAmount pairs toks 1 = some A ∧ g = (A - 1) * 100 ∧
        f = (u.map (fun p => p.feeRate * 100)).sum) ∧
    (∀ (t : String × String × String) (pairs : List TradingPair) (ex : String)
      (p : ArbitragePath), evalTriangle t pairs ex = .ok (some p) →
      p.netProfitPct = p.grossProfitPct - p.totalFeesPct) := by
  constructor
  · intro pairs toks g f st u h
    obtain ⟨A, tail, hA, hg, hu, hf⟩ :=
      calcPathGo_spec toks pairs 1 0 [] [] g f st u h
    rw [List.nil_append] at hu
    subst hu
    refine ⟨A, hA, hg, ?_⟩
    rw [hf, zero_add]
  · intro t pairs ex p h
    obtain ⟨-, h2⟩ := triFold_spec pairs ex (permsOf t) none (some p) h
    obtain ⟨hprov, -, -⟩ := h2 p rfl
    rcases hprov with hprov | ⟨q, -, r, -, hpr⟩
    · cases hprov
    · rw [hpr]
      rfl

/-- Concrete pairs for the triangular witnesses: `A/B` at bid 2,
`B/C` at bid 3, `A/C` at bid 5 / ask 4, all fee-free. -/
def wP1 : TradingPair :=
  { base := "A", quote := "B", bid := 2, ask := 2, feeRate := 0, exchange := "x" }

/-- Second witness pair. -/
def wP2 : TradingPair :=
  { base := "B", quote := "C", bid := 3, ask := 3, feeRate := 0, exchange := "x" }

/-- Third witness pair. -/
def wP3 : TradingPair :=
  { base := "A", quote := "C", bid := 5, ask := 4, feeRate := 0, exchange := "x" }

/-- Witness pair list. -/
def wTriPairs : List TradingPair := [wP1, wP2, wP3]

/-- The execution steps of the witness cycle `A → B → C → A`. -/
def wSteps : List Step :=
  [.sell "A" "B" 2, .sell "B" "C" 3, .buy "A" "C" 4]

/-- The valuation of the witness cycle: sell 1 A for 2 B, sell for 6 C, buy
1.5 A back — a 50% gross profit with no fees. -/
lemma calcPath_witness_eval :
    calcPathProfit ["A", "B", "C", "A"] wTriPairs =
      .ok (some (50, 0, wSteps, wTriPairs)) := by
  norm_num [calcPathProfit, calcPathGo, pairLookup, pairMatches, wP1, wP2,
    wP3, wSteps, wTriPairs, List.find?,
    (show ¬("A" : String) = "B" by decide),
    (show ¬("B" : String) = "A" by decide),
    (show ¬("A" : String) = "C" by decide),
    (show ¬("C" : String) = "A" by decide),
    (show ¬("B" : String) = "C" by decide),
    (show ¬("C" : String) = "B" by decide)]

/-- The best path the triangle evaluator finds on the witness pairs. -/
def wPath : ArbitragePath :=
  { tokens := ["A", "B", "C", "A"], pairs := wTriPairs, grossProfitPct := 50,
    netProfitPct := 50, totalFeesPct := 0, exchange := "x",
    executionSteps := wSteps }

/-- Full evaluation of the witness triangle. -/
lemma evalTriangle_witness_eval :
    evalTriangle ("A", "B", "C") wTriPairs "x" = .ok (some wPath) := by
  norm_num [evalTriangle, permsOf, cycleOf, List.foldlM_cons,
    List.foldlM_nil, triStep, except_bind_ok, except_pure, calcPathProfit,
    calcPathGo, pairLookup, pairMatches, mkTriPath, wP1, wP2, wP3, wSteps,
    wTriPairs, wPath, List.find?,
    (show ¬("A" : String) = "B" by decide),
    (show ¬("B" : String) = "A" by decide),
    (show ¬("A" : String) = "C" by decide),
    (show ¬("C" : String) = "A" by decide),
    (show ¬("B" : String) = "C" by decide),
    (show ¬("C" : String) = "B" by decide)]

/-- Witness for C3 at the concrete cycle `A → B → C → A`. -/
theorem tri_path_valuation_witness :
    (∃ A, specFinalAmount wTriPairs ["A", "B", "C", "A"] 1 = some A ∧
      (50 : ℚ) = (A - 1) * 100 ∧
      (0 : ℚ) = (wTriPairs.map (fun p => p.feeRate * 100)).sum) ∧
    wPath.netProfitPct = wPath.grossProfitPct - wPath.totalFeesPct :=
  ⟨tri_path_valuation.1 wTriPairs ["A", "B", "C", "A"] 50 0 wSteps wTriPairs
     calcPath_witness_eval,
   tri_path_valuation.2 ("A", "B", "C") wTriPairs "x" wPath
     evalTriangle_witness_eval⟩

/-! ## C4 — best-permutation search over a triangle -/

/-- C4: the evaluator considers all 6 permutations of the triple; a
permutation whose valuation hits a missing pair lookup contributes no
candidate (not an error); the triangle yields null exactly when every
permutation is unreachable; and a returned path comes from one of the
permutations and maximizes `gross_profit_pct` over all reachable ones. -/
theorem tri_best_permutation (t : String × String × String)
    (pairs : List TradingPair) (ex : String) :
    (permsOf t).length = 6 ∧
    (evalTriangle t pairs ex = .ok none ↔
      ∀ q ∈ permsOf t, calcPathProfit (cycleOf q) pairs = .ok none) ∧
    (∀ p, evalTriangle t pairs ex = .ok (some p) →
      (∃ q ∈ permsOf t, ∃ r,
        calcPathProfit (cycleOf q) pairs = .ok (some r) ∧
          p = mkTriPath ex q r) ∧
      (∀ q ∈ permsOf t, ∀ r,
        calcPathProfit (cycleOf q) pairs = .ok (some r) →
          r.1 ≤ p.grossProfitPct)) := by
  refine ⟨rfl, ⟨?_, ?_⟩, ?_⟩
  · intro h
    exact ((triFold_spec pairs ex (permsOf t) none none h).1.mp rfl).2
  · intro hall
    exact triFold_all_none pairs ex (permsOf t) none hall
  · intro p h
    obtain ⟨-, h2⟩ := triFold_spec pairs ex (permsOf t) none (some p) h
    obtain ⟨hprov, -, hbound⟩ := h2 p rfl
    rcases hprov with hprov | hprov
    · cases hprov
    · exact ⟨hprov, hbound⟩

/-- Witness for C4 at the concrete witness triangle. -/
theorem tri_best_permutation_witness :
    (∃ q ∈ permsOf ("A", "B", "C"), ∃ r,
      calcPathProfit (cycleOf q) wTriPairs = .ok (some r) ∧
        wPath = mkTriPath "x" q r) ∧
    (∀ q ∈ permsOf ("A", "B", "C"), ∀ r,
      calcPathProfit (cycleOf q) wTriPairs = .ok (some r) →
        r.1 ≤ wPath.grossProfitPct) :=
  (tri_best_permutation ("A", "B", "C") wTriPairs "x").2.2 wPath
    evalTriangle_witness_eval

/-! ## C2 — the scan driver -/

lemma foldlM_eq_foldl {α β : Type} (f : β → α → Except Unit β)
    (g : β → α → β) :
    ∀ (l : List α), (∀ b, ∀ a ∈ l, f b a = .ok (g b a)) →
      ∀ b, l.foldlM f b = .ok (l.foldl g b) := by
  intro l
  induction l with
  | nil =>
    intro _ b
    rw [List.foldlM_nil, List.foldl_nil, except_pure]
  | cons a l IH =>
    intro h b
    rw [List.foldlM_cons, h b a (List.mem_cons_self _ _), except_bind_ok,
      List.foldl_cons]
    exact IH (fun b' a' ha' => h b' a' (List.mem_cons_of_mem _ ha')) (g b a)

lemma evalOpp_of_ne {s : Scanner} {bq : PriceQuote} (sq : PriceQuote)
    (hne : bq.ask ≠ 0) :
    evalOpp s bq sq = .ok (evalOppOk s bq sq) := by
  unfold evalOpp evalOppOk
  by_cases h1 : sq.bid ≤ bq.ask
  · rw [if_pos h1, if_pos h1]
  · rw [if_neg h1, if_neg h1, if_neg hne]

lemma scanStep_of_ne {s : Scanner} {bq : PriceQuote} (hne : bq.ask ≠ 0)
    (acc : List ArbitrageOpportunity) (sq : PriceQuote) :
    scanStep s bq acc sq = .ok (scanStepOk s bq acc sq) := by
  unfold scanStep scanStepOk
  by_cases he : bq.exchange = sq.exchange
  · rw [if_pos he, if_pos he]
  · rw [if_neg he, if_neg he, evalOpp_of_ne sq hne]
    cases evalOppOk s bq sq with
    | none => rfl
    | some opp =>
      by_cases hm : s.minProfitPct ≤ opp.netSpreadPct
      · simp only [if_pos hm]
      · simp only [if_neg hm]

lemma scanCandidates_of_ne {s : Scanner} {quotes : List PriceQuote}
    (h : ∀ q ∈ quotes, q.ask ≠ 0) :
    scanCandidates s quotes = .ok (scanCandidatesOk s quotes) := by
  unfold scanCandidates scanCandidatesOk
  apply foldlM_eq_foldl
  intro b bq hbq
  exact foldlM_eq_foldl _ _ quotes
    (fun b' sq _ => scanStep_of_ne (h bq hbq) b' sq) b

lemma foldl_mem_char {α β : Type} (step : List β → α → List β)
    (Q : α → β → Prop)
    (hstep : ∀ acc a t, t ∈ step acc a ↔ t ∈ acc ∨ Q a t) :
    ∀ (l : List α) (acc : List β) (t : β),
      t ∈ l.foldl step acc ↔ t ∈ acc ∨ ∃ a ∈ l, Q a t := by
  intro l
  induction l with
  | nil =>
    intro acc t
    simp
  | cons a l IH =>
    intro acc t
    rw [List.foldl_cons, IH, hstep]
    constructor
    · rintro ((h | h) | ⟨a', ha', h⟩)
      · exact Or.inl h
      · exact Or.inr ⟨a, List.mem_cons_self _ _, h⟩
      · exact Or.inr ⟨a', List.mem_cons_of_mem _ ha', h⟩
    · rintro (h | ⟨a', ha', h⟩)
      · exact Or.inl (Or.inl h)
      · rcases List.mem_cons.mp ha' with rfl | ha'
        · exact Or.inl (Or.inr h)
        · exact Or.inr ⟨a', ha', h⟩

lemma scanStepOk_mem (s : Scanner) (bq : PriceQuote) :
    ∀ (acc : List ArbitrageOpportunity) (sq : PriceQuote)
      (o : ArbitrageOpportunity),
      o ∈ scanStepOk s bq acc sq ↔ o ∈ acc ∨
        (¬bq.exchange = sq.exchange ∧ evalOppOk s bq sq = some o ∧
          s.minProfitPct ≤ o.netSpreadPct) := by
  intro acc sq o
  unfold scanStepOk
  by_cases he : bq.exchange = sq.exchange
  · rw [if_pos he]
    simp [he]
  · rw [if_neg he]
    cases hv : evalOppOk s bq sq with
    | none =>
      simp
    | some opp =>
      simp only []
      by_cases hm : s.minProfitPct ≤ opp.netSpreadPct
      · rw [if_pos hm, List.mem_append, List.mem_singleton]
        constructor
        · rintro (h | rfl)
          · exact Or.inl h
          · exact Or.inr ⟨he, rfl, hm⟩
        · rintro (h | ⟨-, hv', hm'⟩)
          · exact Or.inl h
          · exact Or.inr (Option.some.inj hv').symm
      · rw [if_neg hm]
        constructor
        · exact Or.inl
        · rintro (h | ⟨-, hv', hm'⟩)
          · exact h
          · rw [Option.some.inj hv'] at hm
            exact absurd hm' hm

lemma scanCandidatesOk_mem (s : Scanner) (quotes : List PriceQuote)
    (o : ArbitrageOpportunity) :
    o ∈ scanCandidatesOk s quotes ↔ ∃ bq ∈ quotes, ∃ sq ∈ quotes,
      ¬bq.exchange = sq.exchange ∧ evalOppOk s bq sq = some o ∧
        s.minProfitPct ≤ o.netSpreadPct := by
  unfold scanCandidatesOk
  rw [foldl_mem_char _
    (fun bq o => ∃ sq ∈ quotes, ¬bq.exchange = sq.exchange ∧
      evalOppOk s bq sq = some o ∧ s.minProfitPct ≤ o.netSpreadPct)
    (fun acc bq t => foldl_mem_char _ _ (scanStepOk_mem s bq) quotes acc t)
    quotes [] o]
  simp

/-- C2 amended: provided every quote has a nonzero ask price (otherwise any
ordered pair with a zero-ask buy leg and a higher sell bid raises a
division error instead of returning), `scan` with fewer than 2 quotes
returns an empty opportunity list and a null best opportunity, and with at
least 2 quotes returns a result whose opportunity list contains exactly the
evaluated opportunities of ordered distinct-venue quote pairs passing the
`net_spread_pct ≥ min_profit_pct` filter, sorted descending by
`net_spread_pct`, with the head surfaced as the best opportunity. -/
theorem scan_driver (s : Scanner) (pair : String) (quotes : List PriceQuote)
    (hz : ∀ q ∈ quotes, q.ask ≠ 0) :
    (quotes.length < 2 →
      scan s pair quotes =
        .ok { pair := pair, quotes := quotes, opportunities := [],
              bestOpportunity := none }) ∧
    (2 ≤ quotes.length →
      ∃ res, scan s pair quotes = .ok res ∧ res.pair = pair ∧
        res.quotes = quotes ∧
        (∀ o, o ∈ res.opportunities ↔ ∃ bq ∈ quotes, ∃ sq ∈ quotes,
          ¬bq.exchange = sq.exchange ∧ evalOpp s bq sq = .ok (some o) ∧
            s.minProfitPct ≤ o.netSpreadPct) ∧
        res.opportunities.Sorted oppGE ∧
        res.bestOpportunity = res.opportunities.head?) := by
  haveI hTot : IsTotal ArbitrageOpportunity oppGE :=
    ⟨fun a b => le_total b.netSpreadPct a.netSpreadPct⟩
  haveI hTrans : IsTrans ArbitrageOpportunity oppGE :=
    ⟨fun _ _ _ hab hbc => le_trans hbc hab⟩
  constructor
  · intro hlt
    unfold scan
    rw [if_pos hlt]
  · intro hge
    unfold scan
    rw [if_neg (not_lt.mpr hge), scanCandidates_of_ne hz]
    refine ⟨_, rfl, rfl, rfl, ?_, ?_, rfl⟩
    · intro o
      show o ∈ List.insertionSort oppGE (scanCandidatesOk s quotes) ↔ _
      rw [(List.perm_insertionSort oppGE (scanCandidatesOk s quotes)).mem_iff,
        scanCandidatesOk_mem]
      constructor
      · rintro ⟨bq, hbq, sq, hsq, hne, hv, hm⟩
        exact ⟨bq, hbq, sq, hsq, hne,
          by rw [evalOpp_of_ne sq (hz bq hbq), hv], hm⟩
      · rintro ⟨bq, hbq, sq, hsq, hne, hv, hm⟩
        refine ⟨bq, hbq, sq, hsq, hne, ?_, hm⟩
        rw [evalOpp_of_ne sq (hz bq hbq)] at hv
        exact Except.ok.inj hv
    · show (List.insertionSort oppGE (scanCandidatesOk s quotes)).Sorted oppGE
      exact List.sorted_insertionSort oppGE (scanCandidatesOk s quotes)

/-- Counterexample for C2 as stated: a two-quote set containing an
invariant-respecting zero-ask quote makes `scan` raise the evaluator's
division error instead of returning a `ScanResult`. -/
theorem scan_zero_ask_cex :
    scan {} "T/U" [quoteZeroAsk, quoteUnitBid] = .error () := by
  norm_num [scan, scanCandidates, List.foldlM_cons, List.foldlM_nil,
    scanStep, evalOpp, quoteZeroAsk, quoteUnitBid, except_bind_ok,
    except_bind_error, except_pure,
    (show ¬("alpha" : String) = "beta" by decide),
    (show ¬("beta" : String) = "alpha" by decide)]

/-- Witness for C2 (amended): the one-quote branch and the two-quote branch
at concrete quotes. -/
theorem scan_driver_witness :
    scan {} "ETH/USDC" [wBuyQuote] =
      .ok { pair := "ETH/USDC", quotes := [wBuyQuote], opportunities := [],
            bestOpportunity := none } ∧
    (∃ res, scan {} "ETH/USDC" [wBuyQuote, wSellQuote] = .ok res ∧
      res.pair = "ETH/USDC" ∧ res.quotes = [wBuyQuote, wSellQuote] ∧
      (∀ o, o ∈ res.opportunities ↔
        ∃ bq ∈ [wBuyQuote, wSellQuote], ∃ sq ∈ [wBuyQuote, wSellQuote],
          ¬bq.exchange = sq.exchange ∧
            evalOpp {} bq sq = .ok (some o) ∧
            Scanner.minProfitPct {} ≤ o.netSpreadPct) ∧
      res.opportunities.Sorted oppGE ∧
      res.bestOpportunity = res.opportunities.head?) :=
  ⟨(scan_driver {} "ETH/USDC" [wBuyQuote]
      (by intro q hq; fin_cases hq; norm_num [wBuyQuote])).1
      (by norm_num),
   (scan_driver {} "ETH/USDC" [wBuyQuote, wSellQuote]
      (by intro q hq; fin_cases hq <;> norm_num [wBuyQuote, wSellQuote])).2
      (by norm_num)⟩

/-! ## C8 — triangle enumeration is order-independent -/

/-- The (unordered) edge carried by a trading pair, as seen from `(a, b)`. -/
def edgeProp (p : TradingPair) (a b : String) : Prop :=
  (a = p.base ∧ b = p.quote) ∨ (a = p.quote ∧ b = p.base)

lemma alookup_append_single {α : Type} (g : List (String × α)) (x : String)
    (v : α) (z : String) :
    alookup z (g ++ [(x, v)]) =
      match alookup z g with
      | some w => some w
      | none => if z = x then some v else none := by
  induction g with
  | nil => simp [alookup]
  | cons kv es IH =>
    obtain ⟨k, w⟩ := kv
    by_cases hz : z = k
    · simp [alookup, hz]
    · simp only [List.cons_append, alookup, if_neg hz]
      exact IH

lemma alookup_ensureKey (g : Graph) (x z : String) :
    alookup z (ensureKey g x) =
      if (alookup x g).isSome then alookup z g
      else
        match alookup z g with
        | some w => some w
        | none => if z = x then some [] else none := by
  unfold ensureKey
  by_cases h : (alookup x g).isSome
  · rw [if_pos h, if_pos h]
  · rw [if_neg h, if_neg h, alookup_append_single]
    cases alookup z g <;> rfl

lemma memAdj_ensureKey (g : Graph) (x a b : String) :
    memAdj (ensureKey g x) a b ↔ memAdj g a b := by
  unfold memAdj adjList
  rw [alookup_ensureKey]
  by_cases h : (alookup x g).isSome
  · rw [if_pos h]
  · rw [if_neg h]
    cases hz : alookup a g with
    | some w => simp
    | none =>
      simp only []
      by_cases hax : a = x
      · rw [if_pos hax]
        simp
      · rw [if_neg hax]

lemma isSome_ensureKey_self (g : Graph) (x : String) :
    (alookup x (ensureKey g x)).isSome := by
  rw [alookup_ensureKey]
  by_cases h : (alookup x g).isSome
  · rw [if_pos h]
    exact h
  · rw [if_neg h]
    cases hz : alookup x g with
    | some w => simp
    | none => simp

lemma isSome_ensureKey_mono (g : Graph) (x z : String)
    (h : (alookup z g).isSome) : (alookup z (ensureKey g x)).isSome := by
  rw [alookup_ensureKey]
  by_cases hx : (alookup x g).isSome
  · rw [if_pos hx]
    exact h
  · rw [if_neg hx]
    cases hz : alookup z g with
    | some w => simp
    | none =>
      rw [hz] at h
      simp at h

lemma addNbr_cons (k : String) (ns : List String) (es : Graph)
    (x y : String) :
    addNbr ((k, ns) :: es) x y =
      (if k = x then (k, if y ∈ ns then ns else ns ++ [y]) else (k, ns)) ::
        addNbr es x y := by
  unfold addNbr
  simp only [List.map_cons]

lemma alookup_addNbr (g : Graph) (x y z : String) :
    alookup z (addNbr g x y) =
      if z = x then
        (alookup x g).map (fun ns => if y ∈ ns then ns else ns ++ [y])
      else alookup z g := by
  induction g with
  | nil =>
    by_cases hz : z = x
    · simp [addNbr, alookup, hz]
    · simp [addNbr, alookup, hz]
  | cons kv es IH =>
    obtain ⟨k, ns⟩ := kv
    rw [addNbr_cons]
    by_cases hkx : k = x
    · rw [if_pos hkx]
      subst hkx
      by_cases hzk : z = k
      · subst hzk
        simp [alookup]
      · simp [alookup, hzk, IH]
    · rw [if_neg hkx]
      by_cases hzk : z = k
      · subst hzk
        have hzx : ¬z = x := hkx
        simp [alookup, hzx]
      · have hxk : ¬x = k := fun h => hkx h.symm
        simp [alookup, hzk, hxk, IH]

lemma isSome_addNbr (g : Graph) (x y z : String)
    (h : (alookup z g).isSome) : (alookup z (addNbr g x y)).isSome := by
  rw [alookup_addNbr]
  by_cases hz : z = x
  · rw [if_pos hz]
    subst hz
    obtain ⟨v, hv⟩ := Option.isSome_iff_exists.mp h
    rw [hv]
    rfl
  · rw [if_neg hz]
    exact h

lemma memAdj_addNbr (g : Graph) (x y a b : String)
    (hx : (alookup x g).isSome) :
    memAdj (addNbr g x y) a b ↔ memAdj g a b ∨ (a = x ∧ b = y) := by
  unfold memAdj adjList
  rw [alookup_addNbr]
  by_cases hax : a = x
  · rw [if_pos hax]
    subst hax
    obtain ⟨ns, hns⟩ := Option.isSome_iff_exists.mp hx
    rw [hns]
    simp only [Option.map_some', Option.getD_some]
    by_cases hy : y ∈ ns
    · rw [if_pos hy]
      constructor
      · exact fun h => Or.inl h
      · rintro (h | ⟨-, rfl⟩)
        · exact h
        · exact hy
    · rw [if_neg hy, List.mem_append, List.mem_singleton]
      tauto
  · rw [if_neg hax]
    simp [hax]

lemma memAdj_addPairEdges (g : Graph) (p : TradingPair) (a b : String) :
    memAdj (addPairEdges g p) a b ↔ memAdj g a b ∨ edgeProp p a b := by
  unfold addPairEdges edgeProp
  have h1 : (alookup p.base (ensureKey (ensureKey g p.base) p.quote)).isSome :=
    isSome_ensureKey_mono _ _ _ (isSome_ensureKey_self g p.base)
  have h2 : (alookup p.quote (ensureKey (ensureKey g p.base) p.quote)).isSome :=
    isSome_ensureKey_self _ _
  have h3 : (alookup p.quote
      (addNbr (ensureKey (ensureKey g p.base) p.quote) p.base p.quote)).isSome :=
    isSome_addNbr _ _ _ _ h2
  rw [memAdj_addNbr _ _ _ _ _ h3, memAdj_addNbr _ _ _ _ _ h1,
    memAdj_ensureKey, memAdj_ensureKey]
  tauto

lemma memAdj_buildGraph_aux (pairs : List TradingPair) :
    ∀ (g : Graph) (a b : String),
      memAdj (pairs.foldl addPairEdges g) a b ↔
        memAdj g a b ∨ ∃ p ∈ pairs, edgeProp p a b := by
  induction pairs with
  | nil =>
    intro g a b
    simp
  | cons p ps IH =>
    intro g a b
    rw [List.foldl_cons, IH, memAdj_addPairEdges]
    constructor
    · rintro ((h | h) | ⟨p', hp', h⟩)
      · exact Or.inl h
      · exact Or.inr ⟨p, List.mem_cons_self _ _, h⟩
      · exact Or.inr ⟨p', List.mem_cons_of_mem _ hp', h⟩
    · rintro (h | ⟨p', hp', h⟩)
      · exact Or.inl (Or.inl h)
      · rcases List.mem_cons.mp hp' with rfl | hp'
        · exact Or.inl (Or.inr h)
        · exact Or.inr ⟨p', hp', h⟩

lemma memAdj_buildGraph (pairs : List TradingPair) (a b : String) :
    memAdj (buildGraph pairs) a b ↔ ∃ p ∈ pairs, edgeProp p a b := by
  unfold buildGraph
  rw [memAdj_buildGraph_aux]
  simp [memAdj, adjList, alookup]

lemma foldl_finset_char {α β : Type} [DecidableEq β]
    (step : Finset β → α → Finset β) (Q : α → β → Prop)
    (hstep : ∀ acc a t, t ∈ step acc a ↔ t ∈ acc ∨ Q a t) :
    ∀ (l : List α) (acc : Finset β) (t : β),
      t ∈ l.foldl step acc ↔ t ∈ acc ∨ ∃ a ∈ l, Q a t := by
  intro l
  induction l with
  | nil =>
    intro acc t
    simp
  | cons a l IH =>
    intro acc t
    rw [List.foldl_cons, IH, hstep]
    constructor
    · rintro ((h | h) | ⟨a', ha', h⟩)
      · exact Or.inl h
      · exact Or.inr ⟨a, List.mem_cons_self _ _, h⟩
      · exact Or.inr ⟨a', List.mem_cons_of_mem _ ha', h⟩
    · rintro (h | ⟨a', ha', h⟩)
      · exact Or.inl (Or.inl h)
      · rcases List.mem_cons.mp ha' with rfl | ha'
        · exact Or.inl (Or.inr h)
        · exact Or.inr ⟨a', ha', h⟩

lemma mem_keys_of_memAdj (g : Graph) (a b : String) (h : memAdj g a b) :
    a ∈ g.map Prod.fst := by
  induction g with
  | nil =>
    simp [memAdj, adjList, alookup] at h
  | cons kv es IH =>
    obtain ⟨k, ns⟩ := kv
    by_cases hak : a = k
    · simp [hak]
    · simp only [memAdj, adjList, alookup, if_neg hak] at h
      exact List.mem_cons_of_mem _ (IH h)

lemma mem_findTriangles (g : Graph) (t : String × String × String) :
    t ∈ findTriangles g ↔ ∃ a b c, memAdj g a b ∧ memAdj g b c ∧ c ≠ a ∧
      memAdj g c a ∧ t = sort3 a b c := by
  unfold findTriangles
  rw [foldl_finset_char _
    (fun a t => ∃ b ∈ adjList g a, ∃ c ∈ adjList g b,
      (c ≠ a ∧ memAdj g c a) ∧ t = sort3 a b c)
    (fun acc a t => foldl_finset_char _
      (fun b t => ∃ c ∈ adjList g b, (c ≠ a ∧ memAdj g c a) ∧ t = sort3 a b c)
      (fun acc b t => foldl_finset_char _
        (fun c t => (c ≠ a ∧ memAdj g c a) ∧ t = sort3 a b c)
        (fun acc c t => by
          by_cases hc : c ≠ a ∧ memAdj g c a
          · rw [if_pos hc, Finset.mem_insert]
            tauto
          · rw [if_neg hc]
            tauto)
        (adjList g b) acc t)
      (adjList g a) acc t)
    (g.map Prod.fst) ∅ t]
  simp only [Finset.not_mem_empty, false_or]
  constructor
  · rintro ⟨a, -, b, hb, c, hc, ⟨hca, hmca⟩, ht⟩
    exact ⟨a, b, c, hb, hc, hca, hmca, ht⟩
  · rintro ⟨a, b, c, hb, hc, hca, hmca, ht⟩
    exact ⟨a, mem_keys_of_memAdj g a b hb, b, hb, c, hc, ⟨hca, hmca⟩, ht⟩

/-- C8: triangle enumeration is order-independent — permuting the input
pair list leaves the set of unordered (sorted-triple) triangles unchanged. -/
theorem triangle_enum_perm_invariant (pairs pairs' : List TradingPair)
    (hperm : List.Perm pairs pairs') :
    findTriangles (buildGraph pairs) = findTriangles (buildGraph pairs') := by
  have hadj : ∀ x y, memAdj (buildGraph pairs) x y ↔
      memAdj (buildGraph pairs') x y := by
    intro x y
    rw [memAdj_buildGraph, memAdj_buildGraph]
    constructor
    · rintro ⟨p, hp, h⟩
      exact ⟨p, hperm.subset hp, h⟩
    · rintro ⟨p, hp, h⟩
      exact ⟨p, hperm.symm.subset hp, h⟩
  ext t
  rw [mem_findTriangles, mem_findTriangles]
  simp only [hadj]

/-- Witness for C8 at a concrete pair list and a rotation of it. -/
theorem triangle_enum_perm_invariant_witness :
    findTriangles (buildGraph wTriPairs) =
      findTriangles (buildGraph [wP3, wP1, wP2]) :=
  triangle_enum_perm_invariant wTriPairs [wP3, wP1, wP2]
    (@List.perm_append_comm _ [wP1, wP2] [wP3])

end ArbEngine
